import Mathlib

/-!
Verification of the chit-fund backend's bookkeeping rules: a shallow
embedding in Lean 4 of the ledger running-balance computation, the
sequential human-readable id generators, the installment status
derivation and payment recording, transaction reversal, group
membership, and the ledger statement/update handlers, together with
theorems settling the documented properties.

Conventions of the embedding:
* JavaScript numbers are modelled as rationals (`Rat`), dates/timestamps
  as milliseconds since the epoch (`Int`), MongoDB ObjectIds as `Nat`
  surrogates.
* A MongoDB collection is a `List` of documents in creation order, so
  `createdAt` order coincides with list order.
* `findOne` with a descending sort on a string field is the maximum of
  the stored strings under byte-wise (ASCII) comparison.
* A request handler that performs reads and one write is a pure function
  from the documents it reads to an `Except`: `Except.error` models the
  catch-all 400 response path in which nothing was written.
-/

namespace Chitfund
/-- Byte-wise (code-point) lexicographic comparison of character lists,
modelling MongoDB's binary string ordering for ASCII ids. -/
def charsLe : List Char → List Char → Bool
  | [], _ => true
  | _ :: _, [] => false
  | a :: as, b :: bs =>
    if a.toNat < b.toNat then true
    else if b.toNat < a.toNat then false
    else charsLe as bs

/-- String comparison used by the id generators (MongoDB sort order). -/
def strLe (a b : String) : Bool := charsLe a.data b.data

/-- Models `Model.findOne({}, {}, { sort: { id_field: -1 } })`: the
lexicographically greatest id among the stored ones, `none` when the
collection is empty. -/
def lexLast (ids : List String) : Option String :=
  ids.foldl
    (fun acc s =>
      match acc with
      | none => some s
      | some m => if strLe m s then some s else some m)
    none

/-- Models JavaScript `String(n).padStart(3, '0')`: pad with zeroes on
the left up to length 3, longer strings are returned unchanged. -/
def padStart3 (s : String) : String :=
  if 3 ≤ s.data.length then s
  else String.mk (List.replicate (3 - s.data.length) '0') ++ s

/-- Decimal value of a digit list; models `parseInt(s, 10)` on the
all-digit strings produced by the id generators. -/
def digitsToNat (cs : List Char) : Nat :=
  cs.foldl (fun a c => 10 * a + (c.toNat - 48)) 0

/-! ## Ledger entries and the running balance (member.controller.js) -/

/-- One stored row of the `Ledger` collection (ledger.js).  Fields that
never participate in the balance computation (branch/group/transaction
references, description, reference, the generated `ledger_id`) are
carried by the full document model `LedgerDoc` below; here we keep the
fields `createLedgerEntry` reads and writes. -/
structure LEntry where
  member_id : Nat
  date : Int
  credit : Rat
  debit : Rat
  balance : Rat
deriving Repr, DecidableEq

/-- Embeds `createLedgerEntry` (member.controller.js): look up the
most-recently-created ledger entry of the member (`findOne({member_id})
.sort({createdAt: -1})`, i.e. the last element of the member's
subsequence of the creation-ordered collection), take its balance (0
when the member has none), and append a new entry with balance
`last + (credit || 0) - (debit || 0)`.  `credit`/`debit` are `Option`
because the request body may omit them; the schema default stores 0. -/
def createLedgerEntry (st : List LEntry) (m : Nat) (now : Int)
    (credit debit : Option Rat) : List LEntry :=
  let lastEntry := (st.filter (fun e => e.member_id == m)).getLast?
  let lastBalance : Rat :=
    match lastEntry with
    | some e => e.balance
    | none => 0
  let newBalance := lastBalance + credit.getD 0 - debit.getD 0
  st ++ [{ member_id := m, date := now, credit := credit.getD 0,
           debit := debit.getD 0, balance := newBalance }]

/-- Arguments of one successful `createLedgerEntry` call. -/
structure LedgerOp where
  member_id : Nat
  now : Int
  credit : Option Rat
  debit : Option Rat

/-- A sequence of successful `createLedgerEntry` calls applied to an
initially empty collection. -/
def ledgerRun (ops : List LedgerOp) : List LEntry :=
  ops.foldl (fun st op => createLedgerEntry st op.member_id op.now op.credit op.debit) []

/-- The member's subsequence of the creation-ordered collection. -/
def memFilter (m : Nat) (st : List LEntry) : List LEntry :=
  st.filter (fun e => e.member_id == m)

/-- The claimed recurrence: each entry's balance is the previous balance
plus its credit minus its debit, starting from `prev`. -/
def chainOK (prev : Rat) : List LEntry → Prop
  | [] => True
  | e :: t => e.balance = prev + e.credit - e.debit ∧ chainOK e.balance t

/-! ## Installments: pre-save status derivation (installment.js) -/

inductive InstStatus
  | Pending
  | Paid
  | Partial
  | Late
deriving Repr, DecidableEq

inductive PayMode
  | Cash
  | Cheque
  | Online
  | BankTransfer
deriving Repr, DecidableEq

/-- One `Installment` document (installment.js); the id, number and
period generation parts of the schema are not touched by the claims
about status/payment and are modelled separately by the generic id
generator above. -/
structure Installment where
  amount : Rat
  paid_amount : Rat
  pending_amount : Rat
  status : InstStatus
  late_fee : Rat
  due_date : Int
  paid_date : Option Int
  payment_mode : PayMode
  collected_by : Option Nat
deriving Repr, DecidableEq

/-- Embeds the balance/status part of `InstallmentSchema.pre('save')`
(installment.js): recompute `pending_amount = amount - (paid_amount ||
0)`; then, only when `paid_amount > 0` (the JavaScript guard
`this.paid_amount && this.paid_amount > 0`), set `Paid` when
`pending_amount <= 0` and `Partial` when `paid_amount < amount`,
otherwise leave the status as stored; finally override with `Late` when
`due_date < now` and `pending_amount > 0`. -/
def presaveInstallment (i : Installment) (now : Int) : Installment :=
  let pending := i.amount - i.paid_amount
  let st1 :=
    if 0 < i.paid_amount then
      if pending ≤ 0 then InstStatus.Paid
      else if i.paid_amount < i.amount then InstStatus.Partial
      else i.status
    else i.status
  let st2 :=
    if i.due_date < now ∧ 0 < pending then InstStatus.Late else st1
  { i with pending_amount := pending, status := st2 }

/-- The status rule exactly as the claim words it (spec section 4.2):
`Late` when overdue with a positive pending amount, else `Paid` when
`pending_amount ≤ 0`, else `Partial` when `paid_amount > 0`, else
`Pending`.  Stated for comparison with `presaveInstallment`. -/
def claimedStatus (i : Installment) (now : Int) : InstStatus :=
  let pending := i.amount - i.paid_amount
  if i.due_date < now ∧ 0 < pending then InstStatus.Late
  else if pending ≤ 0 then InstStatus.Paid
  else if 0 < i.paid_amount then InstStatus.Partial
  else InstStatus.Pending

/-- A concrete installment with nothing paid. -/
def instC4 : Installment :=
  { amount := 0, paid_amount := 0, pending_amount := 0,
    status := InstStatus.Pending, late_fee := 0, due_date := 10,
    paid_date := none, payment_mode := PayMode.Cash, collected_by := none }

/-! ## Schemes (scheme model) and installment payment (installment controller) -/

inductive AuctionFreq
  | Monthly
  | Weekly
  | Biweekly
deriving Repr, DecidableEq

/-- A `Scheme` document, with exactly the paths declared by
`SchemeSchema`: scheme_id, scheme_name, chit_amount, duration_months,
installment_amount, commission_rate, min_members, max_members,
auction_frequency, enabled, created_by, description.  Note the schema
declares no `late_fee_rate` path. -/
structure Scheme where
  scheme_id : String
  scheme_name : String
  chit_amount : Rat
  duration_months : Nat
  installment_amount : Rat
  commission_rate : Rat
  min_members : Nat
  max_members : Nat
  auction_frequency : AuctionFreq
  enabled : Bool
  created_by : Option Nat
  description : Option String
deriving Repr, DecidableEq

/-- Reading `scheme.late_fee_rate` on a `Scheme` document: the schema
declares no such path, so the property access yields `undefined` for
every stored scheme. -/
def lateFeeRateField (_ : Scheme) : Option Rat := none

/-- Embeds `const lateFeeRate = scheme?.late_fee_rate || 0.02` from
`recordPayment`: optional chaining over the scheme lookup result, then
the JavaScript `||` falls through to the default `0.02` on `undefined`
(and on a stored 0, which cannot occur).  Because `SchemeSchema` has no
`late_fee_rate` path this always evaluates to `2/100`. -/
def lateFeeRateOf (scheme : Option Scheme) : Rat :=
  match scheme.bind lateFeeRateField with
  | some r => if r = 0 then 2 / 100 else r
  | none => 2 / 100

/-- Embeds `Math.ceil((now - due_date) / (1000 * 60 * 60 * 24))`:
the number of (started) days between the due date and the payment
instant, both in milliseconds. -/
def daysLate (now due : Int) : Int :=
  Int.ceil ((((now - due : Int) : Rat)) / 86400000)

/-- Embeds the late-fee computation of `recordPayment`: 0 when the
payment happens at or before the due date (`new Date() >
installment.due_date` is false), otherwise
`amount * lateFeeRate * daysLate`. -/
def computeLateFee (inst : Installment) (scheme : Option Scheme) (now : Int) : Rat :=
  if inst.due_date < now then
    inst.amount * lateFeeRateOf scheme * ((daysLate now inst.due_date : Int) : Rat)
  else 0

/-- The `Receipt` document created by `recordPayment`; the member/group
references and remarks copied from the installment are omitted here as
no claim constrains them, and the pre-save receipt_id/receipt_no
generation follows the generic id generator pattern. -/
structure Receipt where
  branch_id : Nat
  receipt_amount : Rat
  payment_mode : PayMode
  received_by : Nat
deriving Repr, DecidableEq

/-- Request body of `POST /api/installments/:id/pay`. -/
structure PayArgs where
  paid_amount : Rat
  payment_mode : PayMode
  collected_by : Option Nat
deriving Repr, DecidableEq

structure PayResult where
  installment : Installment
  receipt : Receipt
deriving Repr, DecidableEq

/-- Embeds `recordPayment` (installment controller) after the
installment was found: reject when `status === 'Paid' &&
pending_amount <= 0`; otherwise compute the late fee, accumulate
`paid_amount`, stamp `paid_date`, overwrite `late_fee`, set a
provisional status from the *stored* `pending_amount` and the *updated*
`paid_amount`, then `save()` (which runs the pre-save hook
`presaveInstallment`), and create the receipt.  `memberBranch` is the
branch resolved through the member document, `reqEmployee` the
authenticated employee used when `collected_by` is absent. -/
def recordPaymentOk (inst : Installment) (scheme : Option Scheme)
    (memberBranch : Nat) (args : PayArgs) (reqEmployee : Nat) (now : Int) :
    PayResult :=
  let lateFee := computeLateFee inst scheme now
  let inst1 : Installment :=
    { inst with
      paid_amount := inst.paid_amount + args.paid_amount,
      paid_date := some now,
      late_fee := lateFee,
      status :=
        if inst.pending_amount ≤ args.paid_amount then InstStatus.Paid
        else if 0 < inst.paid_amount + args.paid_amount then InstStatus.Partial
        else InstStatus.Pending,
      payment_mode := args.payment_mode,
      collected_by := some (args.collected_by.getD reqEmployee) }
  let inst2 := presaveInstallment inst1 now
  { installment := inst2,
    receipt :=
      { branch_id := memberBranch,
        receipt_amount := args.paid_amount,
        payment_mode := args.payment_mode,
        received_by := args.collected_by.getD reqEmployee } }

def recordPayment (inst : Installment) (scheme : Option Scheme)
    (memberBranch : Nat) (args : PayArgs) (reqEmployee : Nat) (now : Int) :
    Except String PayResult :=
  if inst.status = InstStatus.Paid ∧ inst.pending_amount ≤ 0 then
    Except.error "Installment already fully paid"
  else
    Except.ok (recordPaymentOk inst scheme memberBranch args reqEmployee now)

/-- The observable effect of the payment route on the stored state: on
`Except.error` the handler returned 400 before any write, so the
installment is unchanged and no receipt is appended. -/
def recordPaymentEndpoint (inst : Installment) (scheme : Option Scheme)
    (memberBranch : Nat) (args : PayArgs) (reqEmployee : Nat) (now : Int)
    (receipts : List Receipt) : Nat × Installment × List Receipt :=
  match recordPayment inst scheme memberBranch args reqEmployee now with
  | Except.ok r => (200, r.installment, receipts ++ [r.receipt])
  | Except.error _ => (400, inst, receipts)

/-- A concrete fully-paid installment. -/
def instC7 : Installment :=
  { amount := 1000, paid_amount := 1000, pending_amount := 0,
    status := InstStatus.Paid, late_fee := 0, due_date := 0,
    paid_date := some 0, payment_mode := PayMode.Cash, collected_by := none }

/-- A concrete unpaid overdue installment: due at epoch 0, paid one
millisecond into the second day, so `daysLate = 2` and the fee is
`1000 * 2/100 * 2 = 40`. -/
def instC9 : Installment :=
  { amount := 1000, paid_amount := 0, pending_amount := 1000,
    status := InstStatus.Pending, late_fee := 0, due_date := 0,
    paid_date := none, payment_mode := PayMode.Cash, collected_by := none }

/-! ## Group membership (group.controller.js) -/

inductive GroupStatus
  | Forming
  | Active
  | Completed
deriving Repr, DecidableEq

structure GroupMember where
  member_id : Nat
  payout_month : Int
  join_date : Int
deriving Repr, DecidableEq

/-- The parts of a `Group` document read and written by
`addGroupMember`. -/
structure Group where
  members : List GroupMember
  status : GroupStatus
deriving Repr, DecidableEq

/-- Embeds `addGroupMember` (group.controller.js) after member and
group were found: reject when the member is already in the group, then
when the requested payout month is already assigned
(`group.members.some(m => m.payout_month === payout_month)`); otherwise
push the new member, look the scheme up (a failed lookup throws on
`scheme.min_members` and is caught as a 400 before `group.save()`, so
the stored group is unchanged), switch `Forming` to `Active` when the
new member count reaches `scheme.min_members`, and save. -/
def addGroupMember (g : Group) (scheme : Option Scheme)
    (memberId : Nat) (payoutMonth : Int) (now : Int) : Except String Group :=
  if g.members.any (fun m => m.member_id == memberId) then
    Except.error "Member already in group"
  else if g.members.any (fun m => m.payout_month == payoutMonth) then
    Except.error "Payout month already assigned"
  else
    let members1 := g.members ++ [{ member_id := memberId,
                                    payout_month := payoutMonth,
                                    join_date := now }]
    match scheme with
    | none => Except.error "scheme lookup failed"
    | some s =>
      let status1 :=
        if s.min_members ≤ members1.length ∧ g.status = GroupStatus.Forming then
          GroupStatus.Active
        else g.status
      Except.ok { members := members1, status := status1 }

/-- The observable effect of the route on the stored group: a 400 on
any `Except.error`, with the group unchanged. -/
def addGroupMemberEndpoint (g : Group) (scheme : Option Scheme)
    (memberId : Nat) (payoutMonth : Int) (now : Int) : Nat × Group :=
  match addGroupMember g scheme memberId payoutMonth now with
  | Except.ok g2 => (201, g2)
  | Except.error _ => (400, g)

/-- A group of four members in formation, a scheme requiring five. -/
def groupC8 : Group :=
  { members := [⟨1, 1, 0⟩, ⟨2, 2, 0⟩, ⟨3, 3, 0⟩, ⟨4, 4, 0⟩],
    status := GroupStatus.Forming }

def schemeC8 : Scheme :=
  { scheme_id := "SCH001", scheme_name := "Gold", chit_amount := 100000,
    duration_months := 10, installment_amount := 10000,
    commission_rate := 5 / 100, min_members := 5, max_members := 10,
    auction_frequency := AuctionFreq.Monthly, enabled := true,
    created_by := none, description := none }

/-! ## Ledger statement and guarded update (member.controller.js) -/

/-- A full `Ledger` document (ledger.js) as read and written by
`updateLedgerEntry`. -/
structure LedgerDoc where
  ledger_id : String
  branch_id : Nat
  member_id : Nat
  group_id : Option Nat
  transaction_id : Nat
  date : Int
  debit : Rat
  credit : Rat
  balance : Rat
  description : Option String
  reference : Option String
deriving Repr, DecidableEq

/-- A `PUT /api/ledgers/:id` request body: each key may be present or
absent. -/
structure LedgerUpdateBody where
  ledger_id : Option String
  branch_id : Option Nat
  member_id : Option Nat
  transaction_id : Option Nat
  balance : Option Rat
  date : Option Int
  debit : Option Rat
  credit : Option Rat
  group_id : Option Nat
  description : Option String
  reference : Option String
deriving Repr, DecidableEq

/-- Embeds `updateLedgerEntry` (member.controller.js): the destructuring
`const ... ledger_id, branch_id, member_id, transaction_id, balance,
...updateData ... = req.body` removes those five keys, and
`findOneAndUpdate` applies only the remaining keys of the body to the
document. -/
def updateLedgerEntry (doc : LedgerDoc) (body : LedgerUpdateBody) : LedgerDoc :=
  { doc with
    date := body.date.getD doc.date,
    debit := body.debit.getD doc.debit,
    credit := body.credit.getD doc.credit,
    group_id := match body.group_id with
      | some v => some v
      | none => doc.group_id,
    description := match body.description with
      | some v => some v
      | none => doc.description,
    reference := match body.reference with
      | some v => some v
      | none => doc.reference }

def docC10 : LedgerDoc :=
  { ledger_id := "LGR001", branch_id := 1, member_id := 2, group_id := none,
    transaction_id := 3, date := 0, debit := 0, credit := 100, balance := 100,
    description := none, reference := none }

def bodyC10 : LedgerUpdateBody :=
  { ledger_id := some "LGR999", branch_id := some 9, member_id := some 9,
    transaction_id := some 9, balance := some 0, date := some 7,
    debit := some 5, credit := some 6, group_id := some 4,
    description := some "changed", reference := some "ref" }

/-! ## Member ledger statement (member.controller.js, getMemberLedger) -/

/-- A ledger row as read by `getMemberLedger` for one member: the query
date, the record creation instant and the money fields. -/
structure StmtEntry where
  date : Int
  createdAt : Int
  debit : Rat
  credit : Rat
  balance : Rat
deriving Repr, DecidableEq

/-- The composite sort key `{ date: 1, createdAt: 1 }`. -/
def stmtKeyLe (a b : StmtEntry) : Bool :=
  if a.date < b.date then true
  else if b.date < a.date then false
  else decide (a.createdAt ≤ b.createdAt)

def insertStmt (e : StmtEntry) : List StmtEntry → List StmtEntry
  | [] => [e]
  | x :: t => if stmtKeyLe e x then e :: x :: t else x :: insertStmt e t

/-- Sorting by `{ date: 1, createdAt: 1 }`; on real data the key is
unique (creation instants differ), so any correct sort agrees with this
insertion sort. -/
def sortStmt (l : List StmtEntry) : List StmtEntry :=
  l.foldr insertStmt []

/-- The `filter.date` window built from `startDate`/`endDate`
(`$gte`/`$lte`). -/
def inRange (startDate endDate : Option Int) (e : StmtEntry) : Bool :=
  (match startDate with
   | some s => decide (s ≤ e.date)
   | none => true) &&
  (match endDate with
   | some t => decide (e.date ≤ t)
   | none => true)

/-- Embeds `getMemberLedger` (member.controller.js) for a found member:
`ledgerEntries = Ledger.find(filter).sort({date: 1, createdAt: 1})`;
when the result is nonempty, `firstEntry = Ledger.findOne({member_id})
.sort({date: 1, createdAt: 1})` — note this lookup carries **no date
filter**, so it is the member's first entry overall — and
`opening_balance = firstEntry.balance - firstEntry.credit +
firstEntry.debit`, `closing_balance` the last in-range entry's balance.
Returns `(opening_balance, closing_balance)`. -/
def getMemberLedger (entries : List StmtEntry) (startDate endDate : Option Int) :
    Rat × Rat :=
  let ledgerEntries := sortStmt (entries.filter (inRange startDate endDate))
  if ledgerEntries.isEmpty then (0, 0)
  else
    match (sortStmt entries).head? with
    | some firstEntry =>
      (firstEntry.balance - firstEntry.credit + firstEntry.debit,
       match ledgerEntries.getLast? with
       | some last => last.balance
       | none => 0)
    | none => (0, 0)

/-- Modelled from the claim's words for comparison: identical to
`getMemberLedger` except that the opening balance is reconstructed from
the first entry **within the queried range**. -/
def getMemberLedgerClaimed (entries : List StmtEntry) (startDate endDate : Option Int) :
    Rat × Rat :=
  let ledgerEntries := sortStmt (entries.filter (inRange startDate endDate))
  if ledgerEntries.isEmpty then (0, 0)
  else
    match ledgerEntries.head? with
    | some firstEntry =>
      (firstEntry.balance - firstEntry.credit + firstEntry.debit,
       match ledgerEntries.getLast? with
       | some last => last.balance
       | none => 0)
    | none => (0, 0)

def e1C5 : StmtEntry := { date := 1, createdAt := 1, debit := 0, credit := 100, balance := 100 }

def e2C5 : StmtEntry := { date := 2, createdAt := 2, debit := 0, credit := 50, balance := 150 }

def entriesC5 : List StmtEntry := [e1C5, e2C5]

/-! ## Transactions and reversal (transaction model and controller) -/

inductive TxType
  | Deposit
  | Withdrawal
  | Installment
  | Auction
  | Commission
  | Penalty
  | Other
deriving Repr, DecidableEq

inductive TxStatus
  | Pending
  | Completed
  | Failed
  | Reversed
deriving Repr, DecidableEq

/-- A `Transaction` document (TransactionSchema).  `oid` is the
database-assigned `_id` surrogate used by `related_transaction`. -/
structure Transaction where
  oid : Nat
  transaction_id : String
  branch_id : Nat
  member_id : Option Nat
  group_id : Option Nat
  transaction_type : TxType
  amount : Rat
  transaction_date : Int
  description : Option String
  payment_mode : PayMode
  reference_id : Option String
  recorded_by : Nat
  status : TxStatus
  related_transaction : Option Nat
deriving Repr, DecidableEq

/-- The validation `TransactionSchema` runs on every save: `amount` has
`min: 0.01` plus a custom validator requiring a positive amount for
`Deposit`/`Withdrawal`; `member_id` is required except for
`Commission`/`Other`; `group_id` is required for
`Installment`/`Auction`; `description` is required for `Other`;
`reference_id` is required for non-`Cash` payment modes (both by the
field's `required` function and by the second pre-save hook); and
`transaction_date` must not be in the future. -/
def validTransaction (t : Transaction) (now : Int) : Bool :=
  decide ((1 : Rat) / 100 ≤ t.amount) &&
  (match t.transaction_type with
   | TxType.Deposit | TxType.Withdrawal => decide ((0 : Rat) < t.amount)
   | _ => true) &&
  (match t.transaction_type with
   | TxType.Commission | TxType.Other => true
   | _ => t.member_id.isSome) &&
  (match t.transaction_type with
   | TxType.Installment | TxType.Auction => t.group_id.isSome
   | _ => true) &&
  (match t.transaction_type with
   | TxType.Other => t.description.isSome
   | _ => true) &&
  (match t.payment_mode with
   | PayMode.Cash => true
   | _ => t.reference_id.isSome) &&
  decide (t.transaction_date ≤ now)

/-- The reversal document `reverseTransaction` builds with
`Transaction.create({...original.toObject(), _id: undefined,
transaction_id: undefined, amount: -amount, status: 'Completed',
description: reversal note, related_transaction: original._id})`.
`newOid` and `newId` stand for the fresh `_id` and the
`transaction_id` the pre-save hook would generate. -/
def reversalDoc (original : Transaction) (newOid : Nat) (newId : String) : Transaction :=
  { original with
    oid := newOid,
    transaction_id := newId,
    amount := -original.amount,
    status := TxStatus.Completed,
    description := some ("Reversal of " ++ original.transaction_id),
    related_transaction := some original.oid }

/-- Embeds `reverseTransaction` (transaction controller) for a found
transaction: reject already-reversed originals with a business-rule
error; otherwise `Transaction.create` the reversal document — which
runs the schema validation and throws into the catch-all 400 handler
when it fails, before the original is touched — then update the
original to `Reversed` with the bidirectional link.  On success returns
(updated original, reversal). -/
def reverseTransaction (original : Transaction) (newOid : Nat) (newId : String)
    (now : Int) : Except String (Transaction × Transaction) :=
  if original.status = TxStatus.Reversed then
    Except.error "Transaction already reversed"
  else
    let reversal := reversalDoc original newOid newId
    if validTransaction reversal now then
      Except.ok
        ({ original with
            status := TxStatus.Reversed,
            related_transaction := some newOid },
         reversal)
    else Except.error "Transaction validation failed"

/-- The observable effect of the route on the stored original: 400 with
an unchanged document on any `Except.error`. -/
def reverseTransactionEndpoint (original : Transaction) (newOid : Nat)
    (newId : String) (now : Int) : Nat × Transaction :=
  match reverseTransaction original newOid newId now with
  | Except.ok (o2, _) => (201, o2)
  | Except.error _ => (400, original)

/-- A concrete completed deposit of 100. -/
def txC3 : Transaction :=
  { oid := 1, transaction_id := "TXN25001", branch_id := 1, member_id := some 2,
    group_id := none, transaction_type := TxType.Deposit, amount := 100,
    transaction_date := 0, description := none, payment_mode := PayMode.Cash,
    reference_id := none, recorded_by := 3, status := TxStatus.Completed,
    related_transaction := none }

/-! ## Sequential human-readable ids (pre-save hooks of the models)

Every model follows the pattern of `MemberSchema.pre('save')`:
`findOne` sorted descending on the id field, `parseInt` of the id minus
its 3-letter prefix, `+ 1`, `String(...).padStart(3, '0')`, prefix
prepended, `'<PRE>001'` when the collection is empty.  The generator is
parametric in the prefix; the run theorems use the Member instance
`"MEM"` as representative. -/

/-- The numeric suffix `parseInt(id.replace('MEM', ''), 10)`: stored
ids begin with their 3-letter prefix, so replacing its first occurrence
is dropping the first three characters. -/
def seqSuffix (s : String) : Nat := digitsToNat (s.data.drop 3)

/-- One id-generation step of the shared pre-save hook. -/
def nextSeqId (pre : String) (ids : List String) : String :=
  match lexLast ids with
  | none => pre ++ "001"
  | some last => pre ++ padStart3 (toString (seqSuffix last + 1))

/-- The ids stored after `n` creations starting from an empty
collection, each save generating its id from the ids already stored. -/
def seqRun (pre : String) : Nat → List String
  | 0 => []
  | n + 1 => seqRun pre n ++ [nextSeqId pre (seqRun pre n)]

/-- The id the spec expects for the `k`-th created record. -/
def seqCanon (pre : String) (k : Nat) : String := pre ++ padStart3 (toString k)

/-- The expected collection after `n` creations. -/
def seqCanonList (pre : String) (n : Nat) : List String :=
  (List.range n).map (fun i => seqCanon pre (i + 1))

/-! ## Transaction ids with an embedded year (TransactionSchema) -/

/-- JavaScript `s.slice(-2)`: the last two characters. -/
def lastTwo (s : String) : String :=
  String.mk (s.data.drop (s.data.length - 2))

/-- `new Date().getFullYear().toString().slice(-2)`. -/
def yearSuffix2 (year : Nat) : String := lastTwo (toString year)

/-- `transaction_id.slice(0, 5)`. -/
def txnHead5 (s : String) : String := String.mk (s.data.take 5)

/-- `parseInt(transaction_id.slice(5), 10)`. -/
def txnSuffix (s : String) : Nat := digitsToNat (s.data.drop 5)

/-- Embeds `TransactionSchema.pre('save')`: look up the
lexicographically last stored transaction id; start at `TXN<yy>001`
when there is none or when its first five characters differ from
`TXN<yy>` (the year changed); otherwise increment its numeric suffix
and zero-pad to 3 digits. -/
def nextTransactionId (ids : List String) (year : Nat) : String :=
  let yy := yearSuffix2 year
  match lexLast ids with
  | none => "TXN" ++ yy ++ "001"
  | some last =>
    if txnHead5 last ≠ "TXN" ++ yy then "TXN" ++ yy ++ "001"
    else "TXN" ++ yy ++ padStart3 (toString (txnSuffix last + 1))

/-! ## Theorems -/

theorem chainOK_append (l : List LEntry) (prev : Rat) (e : LEntry)
    (h : chainOK prev l)
    (hb : e.balance =
      (match l.getLast? with | some x => x.balance | none => prev) + e.credit - e.debit) :
    chainOK prev (l ++ [e]) := by
  induction l generalizing prev with
  | nil =>
    refine ⟨?_, trivial⟩
    simpa using hb
  | cons x t ih =>
    obtain ⟨hx, ht⟩ := h
    refine ⟨hx, ih x.balance ht ?_⟩
    cases t with
    | nil => simpa using hb
    | cons y t2 => simpa [List.getLast?_cons_cons] using hb

theorem createLedgerEntry_inv (st : List LEntry) (m mm : Nat) (now : Int)
    (c d : Option Rat) (h : chainOK 0 (memFilter m st)) :
    chainOK 0 (memFilter m (createLedgerEntry st mm now c d)) := by
  by_cases hm : mm = m
  · subst hm
    unfold memFilter createLedgerEntry
    rw [List.filter_append]
    simp only [List.filter_cons, List.filter_nil, beq_self_eq_true, if_pos]
    exact chainOK_append _ _ _ h (by simp [memFilter])
  · unfold memFilter createLedgerEntry
    rw [List.filter_append]
    have : ((mm == m) : Bool) = false := by simpa using hm
    simp only [List.filter_cons, List.filter_nil, this]
    simpa [memFilter] using h

theorem ledgerRun_inv (ops : List LedgerOp) (st : List LEntry)
    (h : ∀ m, chainOK 0 (memFilter m st)) (m : Nat) :
    chainOK 0 (memFilter m
      (ops.foldl (fun s op => createLedgerEntry s op.member_id op.now op.credit op.debit) st)) := by
  induction ops generalizing st with
  | nil => exact h m
  | cons op ops ih =>
    exact ih _ (fun m2 => createLedgerEntry_inv st m2 op.member_id op.now op.credit op.debit (h m2))

/-- C1: for every member and every sequence of successful
`createLedgerEntry` calls, the member's ledger entries in creation order
satisfy `balance_i = balance_(i-1) + credit_i - debit_i` with the
balance before the first entry equal to 0 (omitted credit/debit stored
as 0). -/
theorem createLedgerEntry_running_balance (ops : List LedgerOp) (m : Nat) :
    chainOK 0 (memFilter m (ledgerRun ops)) := by
  unfold ledgerRun
  exact ledgerRun_inv ops [] (fun _ => trivial) m

/-- C4 counterexample: saving an installment with `amount = 0`,
`paid_amount = 0` and a future due date keeps the stored status
`Pending`, while the claimed precedence (pending_amount ≤ 0 → `Paid`)
demands `Paid`: the hook only assigns `Paid`/`Partial` when
`paid_amount > 0` and never resets a status to `Pending`. -/
theorem presaveInstallment_ne_claimedStatus :
    (presaveInstallment instC4 5).status = InstStatus.Pending ∧
    claimedStatus instC4 5 = InstStatus.Paid ∧
    (presaveInstallment instC4 5).status ≠ claimedStatus instC4 5 := by
  refine ⟨by norm_num [presaveInstallment, instC4],
         by norm_num [claimedStatus, instC4], ?_⟩
  norm_num [presaveInstallment, claimedStatus, instC4]
  decide

/-- C4 amended: after every save, `pending_amount = amount -
paid_amount`, and the status is `Late` when overdue with positive
pending amount; otherwise `Paid` when a positive amount has been paid
and nothing is pending, `Partial` when a positive amount has been paid
and something is pending, and the previously stored status (not
necessarily `Pending`) when `paid_amount ≤ 0`.  In particular a payment
bringing `pending_amount` to 0 on an overdue installment yields `Paid`. -/
theorem presaveInstallment_status_characterization (i : Installment) (now : Int) :
    (presaveInstallment i now).pending_amount = i.amount - i.paid_amount ∧
    (presaveInstallment i now).status =
      (if i.due_date < now ∧ 0 < i.amount - i.paid_amount then InstStatus.Late
       else if 0 < i.paid_amount ∧ i.amount - i.paid_amount ≤ 0 then InstStatus.Paid
       else if 0 < i.paid_amount then InstStatus.Partial
       else i.status) := by
  unfold presaveInstallment
  refine ⟨rfl, ?_⟩
  by_cases hl : i.due_date < now ∧ 0 < i.amount - i.paid_amount
  · simp [hl]
  · by_cases hp : 0 < i.paid_amount
    · by_cases hpend : i.amount - i.paid_amount ≤ 0
      · simp [hl, hp, hpend]
      · have hlt : i.paid_amount < i.amount := by linarith [not_le.mp hpend]
        simp [hl, hp, hpend, hlt]
    · simp [hl, hp]

/-- C7: a payment against an installment whose status is `Paid` with
`pending_amount ≤ 0` is rejected with a 400 business-rule response; the
installment is left unchanged and no receipt is created. -/
theorem recordPayment_rejects_fully_paid (inst : Installment)
    (scheme : Option Scheme) (memberBranch : Nat) (args : PayArgs)
    (reqEmployee : Nat) (now : Int) (receipts : List Receipt)
    (hs : inst.status = InstStatus.Paid) (hp : inst.pending_amount ≤ 0) :
    recordPayment inst scheme memberBranch args reqEmployee now =
      Except.error "Installment already fully paid" ∧
    recordPaymentEndpoint inst scheme memberBranch args reqEmployee now receipts =
      (400, inst, receipts) := by
  have hguard : inst.status = InstStatus.Paid ∧ inst.pending_amount ≤ 0 := ⟨hs, hp⟩
  constructor
  · unfold recordPayment
    rw [if_pos hguard]
  · unfold recordPaymentEndpoint recordPayment
    rw [if_pos hguard]

theorem recordPayment_rejects_fully_paid_witness :
    recordPayment instC7 none 1 ⟨100, PayMode.Cash, none⟩ 7 5 =
      Except.error "Installment already fully paid" ∧
    recordPaymentEndpoint instC7 none 1 ⟨100, PayMode.Cash, none⟩ 7 5 [] =
      (400, instC7, []) :=
  recordPayment_rejects_fully_paid instC7 none 1 ⟨100, PayMode.Cash, none⟩ 7 5 []
    rfl (by norm_num [instC7])

/-- C9: when the payment is accepted, the stored `late_fee` is replaced
by `amount * rate * daysLate` with `daysLate = ⌈(now - due_date) / 1
day⌉` whenever the payment happens after the due date, and by 0 at or
before the due date; the rate is the scheme lookup's
`late_fee_rate || 0.02`, which is always `2/100` because the scheme
schema stores no such field.  The result does not depend on the
previously stored `late_fee` (replaced, not accumulated). -/
theorem recordPayment_late_fee (inst : Installment) (scheme : Option Scheme)
    (memberBranch : Nat) (args : PayArgs) (reqEmployee : Nat) (now : Int)
    (hguard : ¬(inst.status = InstStatus.Paid ∧ inst.pending_amount ≤ 0)) :
    ∃ r, recordPayment inst scheme memberBranch args reqEmployee now = Except.ok r ∧
      r.installment.late_fee =
        (if inst.due_date < now then
          inst.amount * (2 / 100) * ((daysLate now inst.due_date : Int) : Rat)
         else 0) ∧
      ∀ f : Rat, ∃ r2,
        recordPayment { inst with late_fee := f } scheme memberBranch args reqEmployee now =
          Except.ok r2 ∧ r2.installment.late_fee = r.installment.late_fee := by
  have hrate : lateFeeRateOf scheme = 2 / 100 := by
    cases scheme with
    | none => rfl
    | some s => rfl
  refine ⟨recordPaymentOk inst scheme memberBranch args reqEmployee now, ?_, ?_, ?_⟩
  · unfold recordPayment
    rw [if_neg hguard]
  · show computeLateFee inst scheme now = _
    unfold computeLateFee
    rw [hrate]
  · intro f
    refine ⟨recordPaymentOk { inst with late_fee := f } scheme memberBranch args reqEmployee now,
      ?_, ?_⟩
    · unfold recordPayment
      rw [if_neg (by exact hguard)]
    · show computeLateFee { inst with late_fee := f } scheme now = computeLateFee inst scheme now
      rfl

theorem recordPayment_late_fee_witness :
    ∃ r, recordPayment instC9 none 1 ⟨1000, PayMode.Cash, none⟩ 7 86400001 =
        Except.ok r ∧
      r.installment.late_fee =
        (if instC9.due_date < 86400001 then
          instC9.amount * (2 / 100) * ((daysLate 86400001 instC9.due_date : Int) : Rat)
         else 0) ∧
      ∀ f : Rat, ∃ r2,
        recordPayment { instC9 with late_fee := f } none 1 ⟨1000, PayMode.Cash, none⟩ 7 86400001 =
          Except.ok r2 ∧ r2.installment.late_fee = r.installment.late_fee :=
  recordPayment_late_fee instC9 none 1 ⟨1000, PayMode.Cash, none⟩ 7 86400001
    (by norm_num [instC9])

/-- C8: a request whose payout month is already assigned to a member of
the group is rejected with a 400 and the group is unchanged; and a
successful addition that brings the member count to at least
`scheme.min_members` while the group is `Forming` makes the group
`Active`. -/
theorem addGroupMember_payout_month_and_activation (g : Group) (s : Scheme)
    (memberId : Nat) (payoutMonth : Int) (now : Int) :
    (g.members.any (fun m => m.payout_month == payoutMonth) = true →
      addGroupMemberEndpoint g (some s) memberId payoutMonth now = (400, g)) ∧
    (∀ g2, addGroupMember g (some s) memberId payoutMonth now = Except.ok g2 →
      g.status = GroupStatus.Forming → s.min_members ≤ g2.members.length →
      g2.status = GroupStatus.Active) := by
  constructor
  · intro hdup
    unfold addGroupMemberEndpoint addGroupMember
    by_cases hmem : g.members.any (fun m => m.member_id == memberId) = true
    · rw [if_pos hmem]
    · rw [if_neg hmem, if_pos hdup]
  · intro g2 hok hForming hcount
    unfold addGroupMember at hok
    by_cases hmem : g.members.any (fun m => m.member_id == memberId) = true
    · rw [if_pos hmem] at hok
      exact absurd hok (by simp)
    · rw [if_neg hmem] at hok
      by_cases hdup : g.members.any (fun m => m.payout_month == payoutMonth) = true
      · rw [if_pos hdup] at hok
        exact absurd hok (by simp)
      · rw [if_neg hdup] at hok
        simp only [Except.ok.injEq] at hok
        subst hok
        have hc : s.min_members ≤
            (g.members ++ [GroupMember.mk memberId payoutMonth now]).length := by
          simpa using hcount
        show (if s.min_members ≤ (g.members ++ [GroupMember.mk memberId payoutMonth now]).length ∧
              g.status = GroupStatus.Forming then GroupStatus.Active else g.status) =
            GroupStatus.Active
        rw [if_pos ⟨hc, hForming⟩]

theorem addGroupMember_payout_month_and_activation_witness :
    addGroupMemberEndpoint groupC8 (some schemeC8) 9 4 0 = (400, groupC8) ∧
    (addGroupMember groupC8 (some schemeC8) 5 5 0 =
      Except.ok { members := groupC8.members ++ [⟨5, 5, 0⟩],
                  status := GroupStatus.Active } ∧
     GroupStatus.Active = GroupStatus.Active) := by
  refine ⟨(addGroupMember_payout_month_and_activation groupC8 schemeC8 9 4 0).1 (by decide),
     ?_, ?_⟩
  · rfl
  · exact (addGroupMember_payout_month_and_activation groupC8 schemeC8 5 5 0).2
      { members := groupC8.members ++ [⟨5, 5, 0⟩], status := GroupStatus.Active }
      (by rfl) rfl (by decide)

/-- C10: for every request body, `updateLedgerEntry` leaves `ledger_id`,
`branch_id`, `member_id`, `transaction_id` and `balance` unchanged,
while a body that supplies `date`, `debit`, `credit`, `group_id`,
`description` or `reference` does overwrite that field. -/
theorem updateLedgerEntry_frame (doc : LedgerDoc) (body : LedgerUpdateBody) :
    (updateLedgerEntry doc body).ledger_id = doc.ledger_id ∧
    (updateLedgerEntry doc body).branch_id = doc.branch_id ∧
    (updateLedgerEntry doc body).member_id = doc.member_id ∧
    (updateLedgerEntry doc body).transaction_id = doc.transaction_id ∧
    (updateLedgerEntry doc body).balance = doc.balance ∧
    (∀ v, body.date = some v → (updateLedgerEntry doc body).date = v) ∧
    (∀ v, body.debit = some v → (updateLedgerEntry doc body).debit = v) ∧
    (∀ v, body.credit = some v → (updateLedgerEntry doc body).credit = v) ∧
    (∀ v, body.group_id = some v → (updateLedgerEntry doc body).group_id = some v) ∧
    (∀ v, body.description = some v → (updateLedgerEntry doc body).description = some v) ∧
    (∀ v, body.reference = some v → (updateLedgerEntry doc body).reference = some v) := by
  refine ⟨rfl, rfl, rfl, rfl, rfl, ?_, ?_, ?_, ?_, ?_, ?_⟩ <;>
    · intro v hv
      simp [updateLedgerEntry, hv]

theorem updateLedgerEntry_frame_witness :
    (updateLedgerEntry docC10 bodyC10).balance = docC10.balance ∧
    (updateLedgerEntry docC10 bodyC10).ledger_id = docC10.ledger_id ∧
    (updateLedgerEntry docC10 bodyC10).date = 7 ∧
    (updateLedgerEntry docC10 bodyC10).group_id = some 4 :=
  ⟨(updateLedgerEntry_frame docC10 bodyC10).2.2.2.2.1,
   (updateLedgerEntry_frame docC10 bodyC10).1,
   (updateLedgerEntry_frame docC10 bodyC10).2.2.2.2.2.1 7 rfl,
   (updateLedgerEntry_frame docC10 bodyC10).2.2.2.2.2.2.2.2.1 4 rfl⟩

/-- C5 counterexample: a member with two entries (credit 100 then credit
50, balances 100 and 150) queried with `startDate = 2`: the only
in-range entry is the second, so the claim demands opening balance
`150 - 50 = 100`, but the code reconstructs it from the member's first
entry overall (`100 - 100 = 0`) because the `findOne` lacks the date
filter. -/
theorem getMemberLedger_opening_counterexample :
    getMemberLedger entriesC5 (some 2) none = (0, 150) ∧
    getMemberLedgerClaimed entriesC5 (some 2) none = (100, 150) ∧
    getMemberLedger entriesC5 (some 2) none ≠
      getMemberLedgerClaimed entriesC5 (some 2) none := by
  have h1 : getMemberLedger entriesC5 (some 2) none = (100 - 100 + 0, 150) := rfl
  have h2 : getMemberLedgerClaimed entriesC5 (some 2) none = (150 - 50 + 0, 150) := rfl
  refine ⟨?_, ?_, ?_⟩
  · rw [h1]; norm_num
  · rw [h2]; norm_num
  · rw [h1, h2]
    intro h
    have := congrArg Prod.fst h
    norm_num at this

/-- C5 amended: with at least one in-range entry, the opening balance is
the pre-entry balance reconstructed from the member's first ledger entry
**overall** (by `{date, createdAt}` order, ignoring the queried range),
and the closing balance is the balance of the last in-range entry. -/
theorem getMemberLedger_opening_closing (entries : List StmtEntry)
    (startDate endDate : Option Int) (f : StmtEntry)
    (h1 : sortStmt (entries.filter (inRange startDate endDate)) ≠ [])
    (h2 : (sortStmt entries).head? = some f) :
    getMemberLedger entries startDate endDate =
      (f.balance - f.credit + f.debit,
       match (sortStmt (entries.filter (inRange startDate endDate))).getLast? with
       | some last => last.balance
       | none => 0) := by
  have hne : (sortStmt (entries.filter (inRange startDate endDate))).isEmpty = false := by
    cases hl : sortStmt (entries.filter (inRange startDate endDate)) with
    | nil => exact absurd hl h1
    | cons a t => rfl
  unfold getMemberLedger
  simp only [hne, h2, Bool.false_eq_true, if_false]

theorem getMemberLedger_opening_closing_witness :
    getMemberLedger entriesC5 none none =
      (e1C5.balance - e1C5.credit + e1C5.debit,
       match (sortStmt (entriesC5.filter (inRange none none))).getLast? with
       | some last => last.balance
       | none => 0) :=
  getMemberLedger_opening_closing entriesC5 none none e1C5
    (by
      rw [show sortStmt (entriesC5.filter (inRange none none)) = [e1C5, e2C5] from rfl]
      exact List.cons_ne_nil _ _)
    rfl

/-- C3 (code bug): every stored transaction has `amount ≥ 0.01`
(enforced at its own creation), so the reversal document's negated
amount violates the schema's `min: 0.01` and `Transaction.create`
always throws: `reverseTransaction` on any not-yet-reversed transaction
answers 400 and leaves the original unchanged, never creating the
reversal pair the code (and spec) intend.  Reversing an
already-reversed transaction is also rejected, as claimed. -/
theorem reverseTransaction_always_fails (original : Transaction) (newOid : Nat)
    (newId : String) (now : Int) (hamount : (1 : Rat) / 100 ≤ original.amount) :
    reverseTransactionEndpoint original newOid newId now = (400, original) := by
  unfold reverseTransactionEndpoint reverseTransaction
  by_cases hrev : original.status = TxStatus.Reversed
  · rw [if_pos hrev]
  · rw [if_neg hrev]
    have hneg : validTransaction (reversalDoc original newOid newId) now = false := by
      have hlt : ¬ ((1 : Rat) / 100 ≤ -original.amount) := by
        intro hc
        have h0 : (0 : Rat) < 1 / 100 := by norm_num
        linarith
      unfold validTransaction
      simp only [reversalDoc, Bool.and_eq_false_iff]
      left; left; left; left; left; left
      simpa using hlt
    simp [hneg]

theorem reverseTransaction_always_fails_witness :
    reverseTransactionEndpoint txC3 2 "TXN25002" 5 = (400, txC3) :=
  reverseTransaction_always_fails txC3 2 "TXN25002" 5 (by norm_num [txC3])

set_option maxRecDepth 20000 in
theorem seqCanon_strLe_succ :
    ∀ m, m < 999 → 1 ≤ m → strLe (seqCanon "MEM" m) (seqCanon "MEM" (m + 1)) = true := by
  decide

set_option maxRecDepth 20000 in
theorem seqSuffix_seqCanon :
    ∀ m, m < 1001 → 1 ≤ m → seqSuffix (seqCanon "MEM" m) = m := by
  decide

theorem seqCanon_1000_not_after_999 :
    strLe (seqCanon "MEM" 999) (seqCanon "MEM" 1000) = false := by
  decide

theorem seqCanonList_succ (pre : String) (n : Nat) :
    seqCanonList pre (n + 1) = seqCanonList pre n ++ [seqCanon pre (n + 1)] := by
  unfold seqCanonList
  rw [List.range_succ, List.map_append]
  rfl

theorem lexLast_concat (l : List String) (x : String) :
    lexLast (l ++ [x]) =
      (match lexLast l with
       | none => some x
       | some m => if strLe m x then some x else some m) := by
  unfold lexLast
  rw [List.foldl_append]
  rfl

theorem lexLast_concat_some (l : List String) (x m : String)
    (h : lexLast l = some m) :
    lexLast (l ++ [x]) = if strLe m x then some x else some m := by
  rw [lexLast_concat, h]

theorem lexLast_seqCanonList :
    ∀ n, 1 ≤ n → n ≤ 999 → lexLast (seqCanonList "MEM" n) = some (seqCanon "MEM" n) := by
  intro n
  induction n with
  | zero => omega
  | succ m ih =>
    intro _ hle
    cases Nat.eq_zero_or_pos m with
    | inl h0 =>
      subst h0
      rfl
    | inr h1 =>
      rw [seqCanonList_succ, lexLast_concat_some _ _ _ (ih h1 (by omega)),
        seqCanon_strLe_succ m (by omega) h1]
      rfl

theorem seqRun_eq_canonList :
    ∀ n, n ≤ 1000 → seqRun "MEM" n = seqCanonList "MEM" n := by
  intro n
  induction n with
  | zero => intro _; rfl
  | succ m ih =>
    intro hle
    show seqRun "MEM" m ++ [nextSeqId "MEM" (seqRun "MEM" m)] = _
    rw [ih (by omega), seqCanonList_succ]
    cases Nat.eq_zero_or_pos m with
    | inl h0 =>
      subst h0
      rfl
    | inr h1 =>
      have hnext : nextSeqId "MEM" (seqCanonList "MEM" m) = seqCanon "MEM" (m + 1) := by
        unfold nextSeqId
        rw [lexLast_seqCanonList m h1 (by omega)]
        show "MEM" ++ padStart3 (toString (seqSuffix (seqCanon "MEM" m) + 1)) = _
        rw [seqSuffix_seqCanon m (by omega) h1]
        rfl
      rw [hnext]

theorem nextSeqId_canonList_1000 :
    nextSeqId "MEM" (seqCanonList "MEM" 1000) = seqCanon "MEM" 1000 := by
  have h1000 : seqCanonList "MEM" 1000 =
      seqCanonList "MEM" 999 ++ [seqCanon "MEM" 1000] := seqCanonList_succ "MEM" 999
  have hlex : lexLast (seqCanonList "MEM" 1000) = some (seqCanon "MEM" 999) := by
    rw [h1000,
      lexLast_concat_some _ _ _ (lexLast_seqCanonList 999 (by omega) (by omega)),
      seqCanon_1000_not_after_999]
    rfl
  unfold nextSeqId
  rw [hlex]
  show "MEM" ++ padStart3 (toString (seqSuffix (seqCanon "MEM" 999) + 1)) = _
  rw [seqSuffix_seqCanon 999 (by omega) (by omega)]
  rfl

/-- C2 counterexample: in a run of 1001 creations from an empty
collection the 1001st generated Member id is `MEM1000`, not `MEM1001`:
after `MEM1000` is stored, the lexicographically last id is `MEM999`
(`"MEM999" > "MEM1000"` byte-wise), so the generator recomputes
`MEM1000`, a duplicate.  The claimed consequence "the Nth created
record receives `<PREFIX>` + zero-padded N for every N" fails at
N = 1001. -/
theorem seqRun_1001_collision :
    (seqRun "MEM" 1001).getLast? = some "MEM1000" ∧
    seqCanon "MEM" 1000 = "MEM1000" ∧
    "MEM1000" ≠ "MEM" ++ padStart3 (toString 1001) := by
  refine ⟨?_, by decide, by decide⟩
  show (seqRun "MEM" 1000 ++ [nextSeqId "MEM" (seqRun "MEM" 1000)]).getLast? = _
  rw [List.getLast?_concat, seqRun_eq_canonList 1000 (by omega),
    nextSeqId_canonList_1000]
  rw [show seqCanon "MEM" 1000 = "MEM1000" by decide]

/-- C2 amended: a creation with an empty collection generates
`<PREFIX>001`; otherwise the generated id is the prefix followed by the
zero-padded (to at least 3 digits) successor of the numeric suffix of
the lexicographically last stored id; consequently the Nth created
record receives `<PREFIX>` + zero-padded N for every N ≤ 1000 — but not
beyond (see the 1001st creation above). -/
theorem nextSeqId_spec :
    (∀ pre : String, nextSeqId pre [] = pre ++ "001") ∧
    (∀ (pre last : String) (ids : List String), lexLast ids = some last →
      nextSeqId pre ids = pre ++ padStart3 (toString (seqSuffix last + 1))) ∧
    (∀ n, 1 ≤ n → n ≤ 1000 →
      (seqRun "MEM" n).getLast? = some (seqCanon "MEM" n)) := by
  refine ⟨fun pre => rfl, ?_, ?_⟩
  · intro pre last ids hlast
    unfold nextSeqId
    rw [hlast]
  · intro n h1 hle
    cases n with
    | zero => omega
    | succ m =>
      rw [seqRun_eq_canonList (m + 1) hle, seqCanonList_succ, List.getLast?_concat]

theorem nextSeqId_spec_witness :
    nextSeqId "LGR" [] = "LGR" ++ "001" ∧
    nextSeqId "MEM" ["MEM001", "MEM002"] =
      "MEM" ++ padStart3 (toString (seqSuffix "MEM002" + 1)) ∧
    (seqRun "MEM" 3).getLast? = some (seqCanon "MEM" 3) :=
  ⟨nextSeqId_spec.1 "LGR",
   nextSeqId_spec.2.1 "MEM" "MEM002" ["MEM001", "MEM002"] (by decide),
   nextSeqId_spec.2.2 3 (by omega) (by omega)⟩

/-- C6: a Transaction created with an empty collection gets
`TXN<yy>001` where `yy` is the current year's last two digits; when the
lexicographically last stored id embeds a different year (its first
five characters are not `TXN<yy>`) the numeric suffix restarts at 001;
otherwise the id is `TXN<yy>` followed by the zero-padded successor of
the stored numeric suffix. -/
theorem nextTransactionId_spec (year : Nat) :
    (nextTransactionId [] year = "TXN" ++ yearSuffix2 year ++ "001") ∧
    (∀ (last : String) (ids : List String), lexLast ids = some last →
      txnHead5 last ≠ "TXN" ++ yearSuffix2 year →
      nextTransactionId ids year = "TXN" ++ yearSuffix2 year ++ "001") ∧
    (∀ (last : String) (ids : List String), lexLast ids = some last →
      txnHead5 last = "TXN" ++ yearSuffix2 year →
      nextTransactionId ids year =
        "TXN" ++ yearSuffix2 year ++ padStart3 (toString (txnSuffix last + 1))) := by
  refine ⟨rfl, ?_, ?_⟩
  · intro last ids hlast hne
    unfold nextTransactionId
    rw [hlast]
    simp only [if_pos hne]
  · intro last ids hlast heq
    unfold nextTransactionId
    rw [hlast]
    simp only [heq, ne_eq, not_true_eq_false, if_false]

theorem nextTransactionId_spec_witness :
    nextTransactionId [] 2025 = "TXN" ++ yearSuffix2 2025 ++ "001" ∧
    nextTransactionId ["TXN24007"] 2025 = "TXN" ++ yearSuffix2 2025 ++ "001" ∧
    nextTransactionId ["TXN25003"] 2025 =
      "TXN" ++ yearSuffix2 2025 ++ padStart3 (toString (txnSuffix "TXN25003" + 1)) :=
  ⟨(nextTransactionId_spec 2025).1,
   (nextTransactionId_spec 2025).2.1 "TXN24007" ["TXN24007"] (by decide) (by decide),
   (nextTransactionId_spec 2025).2.2 "TXN25003" ["TXN25003"] (by decide) (by decide)⟩

end Chitfund
